import Mathlib

/-!
Verification development for the realflow-webhook repository.

The repository is a set of near-duplicate Express webhook receivers.  We
shallowly embed the JavaScript values flowing through the handlers with an
inductive `JVal` (mutually defined with its object-field and array-element
spines so that all recursions are structural and kernel-reducible), and we
translate the relevant helpers and handlers of the variants:

* `VC`  — the "FINAL" variant (last section of `src/index.js`): `clean`,
  `smallRaw`, `getCallId`, `tryExtractLeadSO`, `tryExtractCQ`, `normalize`,
  `hasAnyLeadField`, the `/vapi/webhook` handler with its gate, its
  `seenCallIds` de-duplication set, and the row builder.
* `VA`  — the first variant of `src/index.js` (`safeStr`, `buildSummary`,
  `trimRaw`, its handler).
* `VG`  — the variant of `src/unnamed/part_002` (no gate, no dedupe,
  `JSON.stringify(p).slice(0, 50000)` raw cell).
* `P1`  — the variant of `src/unnamed/part_001` (`extractLead` with `??`
  fallbacks and `tryJSON`).
* `VE`  — the second variant of `src/unnamed/part_000` (`normalizeRole`).

JavaScript numbers are modelled as `Int` (no payload relevant to the claims
uses non-integer numerics; `JSON.parse` of a fractional literal is modelled
as a parse failure).  The downstream sheets append call is an oracle
parameter: `none` means the awaited call resolved, `some e` means it threw
with stringified error `e`.  The one expression in the `VC` extraction that
can throw on a JSON-shaped payload — `(x?.name || '').toLowerCase()` when a
structured-output item has a truthy non-string `name` — is modelled with
`Except`, and the handler's `catch` turns it into the error response.
-/

mutual

inductive JVal where
  | jnull : JVal
  | jundefined : JVal
  | jstr : String → JVal
  | jnum : Int → JVal
  | jbool : Bool → JVal
  | jobj : JFields → JVal
  | jarr : JElems → JVal

inductive JFields where
  | nil : JFields
  | cons : String → JVal → JFields → JFields

inductive JElems where
  | nil : JElems
  | cons : JVal → JElems → JElems

end

/-- Object construction from a Lean list of key/value pairs. -/
def mkFields : List (String × JVal) → JFields
  | [] => .nil
  | (k, v) :: rest => .cons k v (mkFields rest)

/-- Object literal helper. -/
def mkObj (l : List (String × JVal)) : JVal := .jobj (mkFields l)

/-- Array literal helper. -/
def mkElems : List JVal → JElems
  | [] => .nil
  | v :: rest => .cons v (mkElems rest)

def mkArr (l : List JVal) : JVal := .jarr (mkElems l)

def JElems.toList : JElems → List JVal
  | .nil => []
  | .cons v rest => v :: rest.toList

def JFields.toList : JFields → List (String × JVal)
  | .nil => []
  | .cons k v rest => (k, v) :: rest.toList

/-- Property lookup on an object spine: first binding wins. -/
def JFields.lookup : JFields → String → JVal
  | .nil, _ => .jundefined
  | .cons k v rest, key => if k = key then v else rest.lookup key

/-- JavaScript property access `v?.key` / `v.key` on the value forms that
occur in the handlers: objects yield the bound value or `undefined`;
everything else yields `undefined` (matching JS access on primitives, and
matching `?.` on null/undefined — no access in the translated code paths
dereferences null/undefined without `?.` or a `|| {}` guard). -/
def getF : JVal → String → JVal
  | .jobj fs, key => fs.lookup key
  | _, _ => .jundefined

/-- Path access `p?.a?.b?...`. -/
def getPath (p : JVal) : List String → JVal
  | [] => p
  | k :: ks => getPath (getF p k) ks

/-- JavaScript truthiness. -/
def truthy : JVal → Bool
  | .jnull => false
  | .jundefined => false
  | .jstr s => s ≠ ""
  | .jnum n => n ≠ 0
  | .jbool b => b
  | .jobj _ => true
  | .jarr _ => true

/-- JavaScript `a || b`. -/
def jsOr (a b : JVal) : JVal := if truthy a then a else b

/-- JavaScript `a ?? b`. -/
def jsNn (a b : JVal) : JVal :=
  match a with
  | .jnull => b
  | .jundefined => b
  | v => v

/-- JavaScript `a || b` on strings (used where the source applies `||` to
already-stringified operands such as `clean(x) || clean(y) || 'literal'`). -/
def strOr (a b : String) : String := if a = "" then b else a

/-- Whitespace for `String.prototype.trim` (the code points exercised by
JSON-carried payloads). -/
def wsC (c : Char) : Bool :=
  c = ' ' ∨ c = '\t' ∨ c = '\n' ∨ c = '\r'

/-- `trim` on the character list: drop whitespace from both ends. -/
def jsTrimL (l : List Char) : List Char :=
  ((l.dropWhile wsC).reverse.dropWhile wsC).reverse

/-- JavaScript `s.trim()`. -/
def jsTrim (s : String) : String := String.mk (jsTrimL s.data)

mutual

/-- JavaScript `String(v)` on the value forms reachable from JSON bodies. -/
def jsToString : JVal → String
  | .jnull => "null"
  | .jundefined => "undefined"
  | .jstr s => s
  | .jnum n => toString n
  | .jbool b => if b then "true" else "false"
  | .jobj _ => "[object Object]"
  | .jarr es => jsToStringElems es

/-- Array-to-string: elements joined by commas, null/undefined as empty. -/
def jsToStringElems : JElems → String
  | .nil => ""
  | .cons v .nil =>
      (match v with
       | .jnull => ""
       | .jundefined => ""
       | v => jsToString v)
  | .cons v rest =>
      (match v with
       | .jnull => ""
       | .jundefined => ""
       | v => jsToString v) ++ "," ++ jsToStringElems rest

end

/-- `clean` of the VC / VB / VD variants:
`(v) => (v == null ? '' : String(v).trim())`. -/
def clean (v : JVal) : String :=
  match v with
  | .jnull => ""
  | .jundefined => ""
  | v => jsTrim (jsToString v)

/-- Lowercasing, character-wise (ASCII payloads). -/
def lowerStr (s : String) : String := String.mk (s.data.map Char.toLower)

/-- Does `hay` start with `needle`? -/
def startsWithL : List Char → List Char → Bool
  | [], _ => true
  | _ :: _, [] => false
  | a :: as, b :: bs => a = b && startsWithL as bs

/-- Substring containment on character lists (regex `/lit/.test`). -/
def subL (needle : List Char) : List Char → Bool
  | [] => startsWithL needle []
  | c :: hs => startsWithL needle (c :: hs) || subL needle hs

/-- `hay` contains `needle` as a substring. -/
def hasSub (hay needle : String) : Bool := subL needle.data hay.data

/-- JSON string escaping for the characters that can occur in our payload
character data. -/
def escC (c : Char) : List Char :=
  if c = '"' then ['\\', '"']
  else if c = '\\' then ['\\', '\\']
  else if c = '\n' then ['\\', 'n']
  else if c = '\t' then ['\\', 't']
  else if c = '\r' then ['\\', 'r']
  else [c]

def escL : List Char → List Char
  | [] => []
  | c :: cs => escC c ++ escL cs

/-- JSON-quoted string literal. -/
def jsonQuote (s : String) : String :=
  String.mk ('"' :: escL s.data ++ ['"'])

/-- Join with a separator. -/
def joinWith (sep : String) : List String → String
  | [] => ""
  | [x] => x
  | x :: xs => x ++ sep ++ joinWith sep xs

mutual

/-- `JSON.stringify` (insertion order, object values that are `undefined`
are dropped, array holes print as `null`; top-level `undefined` prints as
`"undefined"` but is never reached by the translated call sites, which all
pass objects). -/
def strV : JVal → String
  | .jnull => "null"
  | .jundefined => "undefined"
  | .jstr s => jsonQuote s
  | .jnum n => toString n
  | .jbool b => if b then "true" else "false"
  | .jobj fs => "\x7b" ++ joinWith "," (strFields fs) ++ "\x7d"
  | .jarr es => "[" ++ joinWith "," (strElems es) ++ "]"

def strFields : JFields → List String
  | .nil => []
  | .cons k v rest =>
      match v with
      | .jundefined => strFields rest
      | v => (jsonQuote k ++ ":" ++ strV v) :: strFields rest

def strElems : JElems → List String
  | .nil => []
  | .cons v rest =>
      (match v with
       | .jundefined => "null"
       | v => strV v) :: strElems rest

end

/-- `s.slice(0, n)`. -/
def sliceTo (s : String) (n : Nat) : String := String.mk (s.data.take n)

/-- Replace the first occurrence of character `pat` by the characters `rep`
(JavaScript `s.replace('c', rep)` with a single-character pattern). -/
def replFirst (pat : Char) (rep : List Char) : List Char → List Char
  | [] => []
  | c :: cs => if c = pat then rep ++ cs else c :: replFirst pat rep cs

/-- `new Date().toISOString().replace('T', ' ').replace('Z', ' UTC')`,
applied to the ISO string produced by the runtime. -/
def tsFormat (iso : String) : String :=
  String.mk (replFirst 'Z' (" UTC".data) (replFirst 'T' (" ".data) iso.data))

/-- The canonical normalized lead record (§3 of the spec). -/
structure Lead where
  name : String
  phone : String
  email : String
  role : String
  inquiry : String
  market : String
  dealSize : String
  urgency : String
  summary : String
deriving DecidableEq, Repr

def emptyLead : Lead :=
  ⟨"", "", "", "", "", "", "", "", ""⟩

/-! ## VC: the "FINAL" variant (last section of `src/index.js`) -/

/-- `req.body || {}`. -/
def bodyNorm (body : JVal) : JVal := jsOr body (mkObj [])

/-- VC `getCallId`:
`clean(p.call_id || p.callId || p.session_id || p.sessionId ||
p?.metadata?.call_id || p?.metadata?.session_id || p?.assistant?.callId || '')`. -/
def getCallIdVC (p : JVal) : String :=
  clean (jsOr (getF p "call_id") (jsOr (getF p "callId")
    (jsOr (getF p "session_id") (jsOr (getF p "sessionId")
    (jsOr (getPath p ["metadata", "call_id"])
    (jsOr (getPath p ["metadata", "session_id"])
    (jsOr (getPath p ["assistant", "callId"]) (.jstr ""))))))))

/-- VC brokerage resolution:
`clean(p?.assistant?.metadata?.brokerageName) ||
clean(p?.assistant?.brokerageName) || 'Ariel Property Advisors'`. -/
def brokerageVC (p : JVal) : String :=
  strOr (clean (getPath p ["assistant", "metadata", "brokerageName"]))
    (strOr (clean (getPath p ["assistant", "brokerageName"]))
      "Ariel Property Advisors")

/-- `typeof v === 'object' && v` (null is `typeof` object but falsy). -/
def isTruthyObject (v : JVal) : Bool :=
  match v with
  | .jobj _ => true
  | .jarr _ => true
  | _ => false

/-- `x?.type === 'lead'`-style strict string comparison. -/
def isStrEq (v : JVal) (s : String) : Bool :=
  match v with
  | .jstr t => t = s
  | _ => false

/-- The find predicate `(x?.name || '').toLowerCase() === 'lead'`; throws a
TypeError when `x?.name` is truthy but not a string (JavaScript has no
`toLowerCase` on such values), which the handler's `catch` absorbs. -/
def findNameLead : List JVal → Except Unit (Option JVal)
  | [] => .ok none
  | x :: xs =>
      match jsOr (getF x "name") (.jstr "") with
      | .jstr s => if lowerStr s = "lead" then .ok (some x) else findNameLead xs
      | _ => .error ()

/-- `hit.lead || hit.data?.lead || hit.data || hit`. -/
def leadFromHit (h : JVal) : JVal :=
  jsOr (getF h "lead")
    (jsOr (getPath h ["data", "lead"]) (jsOr (getF h "data") h))

/-- One pass of the VC `for (const arr of bags)` loop body over a bag. -/
def scanBag (arr : List JVal) : Except Unit (Option JVal) := do
  let h1 ← findNameLead arr
  let hit := (h1.orElse fun _ =>
    (arr.find? fun x => isStrEq (getF x "type") "lead" || isStrEq (getF x "id") "lead").orElse fun _ =>
    (arr.find? fun x => truthy (getF x "lead")).orElse fun _ =>
    (arr.find? fun x => truthy (getPath x ["data", "lead"])).orElse fun _ =>
    arr.find? fun x => truthy (getF x "data"))
  match hit with
  | some h => pure (some (leadFromHit h))
  | none => pure none

def scanBags : List (List JVal) → Except Unit (Option JVal)
  | [] => .ok none
  | arr :: rest => do
      match ← scanBag arr with
      | some v => pure (some v)
      | none => scanBags rest

/-- Array test for the `.filter(Array.isArray)` on the candidate bags. -/
def asArrayList : JVal → Option (List JVal)
  | .jarr es => some es.toList
  | _ => none

/-- VC `tryExtractLeadSO`. -/
def tryExtractLeadSO (p : JVal) : Except Unit (Option JVal) :=
  if truthy p && isTruthyObject (getF p "lead") then
    .ok (some (getF p "lead"))
  else
    scanBags (List.filterMap asArrayList
      [getF p "structured_outputs",
       getPath p ["assistant", "structured_outputs"],
       getPath p ["data", "structured_outputs"],
       getF p "outputs",
       getPath p ["assistant", "outputs"]])

/-- VC `tryExtractCQ`: the caller/qualifications object literal — note that
all eight keys are always present (possibly bound to `undefined`). -/
def tryExtractCQ (p : JVal) : List (String × JVal) :=
  [("name", getF (getF p "caller") "name"),
   ("phone", jsOr (getF (getF p "caller") "phone") (getF (getF p "caller") "number")),
   ("email", getF (getF p "caller") "email"),
   ("role", getF (getF p "qualifications") "role"),
   ("inquiry", getF (getF p "qualifications") "inquiry"),
   ("market", getF (getF p "qualifications") "market"),
   ("dealSize", jsOr (getF (getF p "qualifications") "deal_size")
      (jsOr (getF (getF p "qualifications") "dealSize")
        (getF (getF p "qualifications") "budget"))),
   ("urgency", jsOr (getF (getF p "qualifications") "urgency")
      (getF (getF p "qualifications") "timeline"))]

/-- The spread source fields of `...(leadSO || {})`: object spread copies
own enumerable properties; spreading a primitive contributes no properties
that the string-keyed lookups of `normalize` can observe (an array or a
string only contributes numeric index keys). -/
def spreadFields : JVal → List (String × JVal)
  | .jobj fs => fs.toList
  | _ => []

/-- `{ ...(leadSO || {}), ...cq }` as a lookup object: with first-binding-wins
lookup, the later `...cq` spread is modelled by putting the `cq` bindings in
front of the `leadSO` bindings. -/
def mergeSpread (leadSO : Option JVal) (p : JVal) : JVal :=
  mkObj (tryExtractCQ p ++ spreadFields (leadSO.getD (mkObj [])))

/-- VC `normalize(raw, summary)`. -/
def normalizeVC (raw : JVal) (summary : JVal) : Lead :=
  { name := clean (getF raw "name")
    phone := clean (getF raw "phone")
    email := clean (getF raw "email")
    role := clean (getF raw "role")
    inquiry := clean (getF raw "inquiry")
    market := clean (getF raw "market")
    dealSize := clean (jsOr (getF raw "dealSize")
      (jsOr (getF raw "deal_size") (getF raw "budget")))
    urgency := clean (jsOr (getF raw "urgency") (getF raw "timeline"))
    summary := clean (jsOr summary (getF raw "summary")) }

/-- The merged lead the VC handler computes for a request body `p`
(after `req.body || {}`):
`normalize({ ...(tryExtractLeadSO(p) || {}), ...tryExtractCQ(p) }, p?.summary)`. -/
def mergedOfE (p : JVal) : Except Unit Lead := do
  let so ← tryExtractLeadSO p
  pure (normalizeVC (mergeSpread so p) (getF p "summary"))

/-- VC `hasAnyLeadField`: some field other than `summary` survives `clean`. -/
def hasAnyLeadField (m : Lead) : Bool :=
  [m.name, m.phone, m.email, m.role, m.inquiry, m.market, m.dealSize,
   m.urgency].any fun s => clean (.jstr s) ≠ ""

/-- The lead as the object literal `{ name, phone, ..., summary }` that VC
feeds to `smallRaw` (insertion order of `normalize`). -/
def leadToJVal (m : Lead) : JVal :=
  mkObj [("name", .jstr m.name), ("phone", .jstr m.phone),
    ("email", .jstr m.email), ("role", .jstr m.role),
    ("inquiry", .jstr m.inquiry), ("market", .jstr m.market),
    ("dealSize", .jstr m.dealSize), ("urgency", .jstr m.urgency),
    ("summary", .jstr m.summary)]

/-- VC `smallRaw`: `j.length > 1000 ? j.slice(0, 997) + '...' : j` applied to
the stringified argument. -/
def smallRawVC (s : String) : String :=
  if s.length > 1000 then String.mk (s.data.take 997 ++ "...".data) else s

/-- The Raw cell of the VC row: `smallRaw({ lead: merged, callId })`. -/
def rawCellVC (m : Lead) (callId : String) : String :=
  smallRawVC (strV (mkObj [("lead", leadToJVal m), ("callId", .jstr callId)]))

/-- The VC row (`A:L`, twelve cells). -/
def rowVC (nowIso brokerage : String) (m : Lead) (callId : String) :
    List String :=
  [tsFormat nowIso, brokerage, m.name, m.phone, m.email, m.role, m.inquiry,
   m.market, m.dealSize, m.urgency, m.summary, rawCellVC m callId]

/-! ## VC: the `/vapi/webhook` handler as a state machine -/

/-- The JSON acknowledgement sent by a handler (every `res.status(s).json(b)`
/ `res.json(b)` call site; `res.json` without `status` sends HTTP 200). -/
structure Resp where
  status : Nat
  ok : Bool
  wrote : Bool
  skipped : Option String
  error : Option String
deriving DecidableEq, Repr

def wroteResp : Resp := ⟨200, true, true, none, none⟩

def skipResp (msg : String) : Resp := ⟨200, true, false, some msg, none⟩

def errResp (e : String) : Resp := ⟨200, false, false, none, some e⟩

/-- Process-local mutable state: the `seenCallIds` set (as a list) and the
rows accumulated by successful downstream appends. -/
structure ServerState where
  seen : List String
  rows : List (List String)
deriving DecidableEq, Repr

/-- Result of one handler invocation: the new process state, the response,
and whether the downstream append call was made. -/
structure HRes where
  state : ServerState
  resp : Resp
  attempted : Bool
deriving DecidableEq, Repr

/-- `if (callId) seenCallIds.add(callId)` (reached only when not seen). -/
def stAdd (st : ServerState) (c : String) : ServerState :=
  if c = "" then st else ⟨c :: st.seen, st.rows⟩

/-- The awaited `sheets.spreadsheets.values.append` plus the `catch`:
`appendErr = none` models a resolved call (row written, `{ok:true,wrote:true}`),
`appendErr = some e` models a rejection caught and answered with
`{ok:false, error:String(e)}` — note the already-inserted call id is not
rolled back. -/
def handleAppend (nowIso : String) (st1 : ServerState) (p : JVal)
    (merged : Lead) (appendErr : Option String) : HRes :=
  match appendErr with
  | none =>
      ⟨⟨st1.seen,
        st1.rows ++ [rowVC nowIso (brokerageVC p) merged (getCallIdVC p)]⟩,
       wroteResp, true⟩
  | some e => ⟨st1, errResp e, true⟩

/-- The VC `/vapi/webhook` handler (`src/index.js`, final variant): gate on
`hasAnyLeadField`, then de-duplicate on the call id, then append. -/
def handleVC (nowIso : String) (st : ServerState) (body : JVal)
    (appendErr : Option String) : HRes :=
  match mergedOfE (bodyNorm body) with
  | .error _ => ⟨st, errResp "TypeError: toLowerCase is not a function", false⟩
  | .ok merged =>
      if hasAnyLeadField merged = false then
        ⟨st, skipResp "no useful fields yet", false⟩
      else if getCallIdVC (bodyNorm body) ≠ "" ∧
          getCallIdVC (bodyNorm body) ∈ st.seen then
        ⟨st, skipResp "already wrote for this call", false⟩
      else
        handleAppend nowIso (stAdd st (getCallIdVC (bodyNorm body)))
          (bodyNorm body) merged appendErr

/-- A batch of sequential requests: `(nowIso, body, appendErr)` triples. -/
def runVC (st : ServerState) : List (String × JVal × Option String) →
    ServerState
  | [] => st
  | r :: rs => runVC (handleVC r.1 st r.2.1 r.2.2).state rs

/-! ## VG: the variant of `src/unnamed/part_002` (no gate, no dedupe) -/

/-- The nine lead-bearing cells C–K of the VG row (`caller.name || ''`, …,
`summary || ''`); the cells are raw JavaScript values. -/
def rowCoreVG (p : JVal) : List JVal :=
  [jsOr (getF (getF p "caller") "name") (.jstr ""),
   jsOr (getF (getF p "caller") "phone") (.jstr ""),
   jsOr (getF (getF p "caller") "email") (.jstr ""),
   jsOr (getF (getF p "qualifications") "role") (.jstr ""),
   jsOr (getF (getF p "qualifications") "inquiry") (.jstr ""),
   jsOr (getF (getF p "qualifications") "market") (.jstr ""),
   jsOr (getF (getF p "qualifications") "deal_size") (.jstr ""),
   jsOr (getF (getF p "qualifications") "urgency") (.jstr ""),
   jsOr (jsOr (getF p "summary") (getF p "final_summary")) (.jstr "")]

/-- The VG Raw cell: `JSON.stringify(p).slice(0, 50000)` — the full original
payload, truncated at 50000 characters. -/
def rawCellVG (p : JVal) : String := sliceTo (strV p) 50000

/-- The VG row: timestamp, brokerage, the nine lead cells, Raw. -/
def rowVG (p : JVal) (nowIso : String) : List JVal :=
  .jstr (tsFormat nowIso) ::
    jsOr (getPath p ["assistant", "metadata", "brokerageName"]) (.jstr "") ::
    rowCoreVG p ++ [.jstr (rawCellVG p)]

/-- The VG `/vapi/webhook` handler: builds the row and always awaits the
append (no gate, no dedupe); the `catch` answers `{ok:false, error}`. -/
def handleVG (p : JVal) (nowIso : String) (appendErr : Option String) :
    Resp × Bool × List JVal :=
  match appendErr with
  | none => (⟨200, true, false, none, none⟩, true, rowVG p nowIso)
  | some e => (⟨200, false, false, none, some e⟩, true, rowVG p nowIso)

/-! ## P1: the variant of `src/unnamed/part_001` (`tryJSON` / `extractLead`)

`tryJSON` applies `JSON.parse` to string inputs, so we model a JSON reader.
Numbers are read as integers; a fractional or exponent literal makes the
read fail (the `Int` model of JavaScript numbers cannot represent it), which
`tryJSON`'s `catch` turns into `{}`. -/

def braceL : Char := Char.ofNat 123

def braceR : Char := Char.ofNat 125

def skipWsJ (cs : List Char) : List Char := cs.dropWhile wsC

def hexDigit (c : Char) : Option Nat :=
  if '0' ≤ c ∧ c ≤ '9' then some (c.toNat - 48)
  else if 'a' ≤ c ∧ c ≤ 'f' then some (c.toNat - 87)
  else if 'A' ≤ c ∧ c ≤ 'F' then some (c.toNat - 55)
  else none

/-- Read the body of a JSON string literal (after the opening quote),
returning the decoded characters and the input after the closing quote. -/
def scanStr : List Char → Option (List Char × List Char)
  | [] => none
  | c :: rest =>
      if c = '"' then some ([], rest)
      else if c = '\\' then
        match rest with
        | [] => none
        | e :: rest2 =>
            if e = 'u' then
              match rest2 with
              | h1 :: h2 :: h3 :: h4 :: rest3 =>
                  match hexDigit h1, hexDigit h2, hexDigit h3, hexDigit h4 with
                  | some a, some b, some c4, some d =>
                      (scanStr rest3).map fun r =>
                        (Char.ofNat (((a * 16 + b) * 16 + c4) * 16 + d) :: r.1, r.2)
                  | _, _, _, _ => none
              | _ => none
            else
              (if e = '"' then some '"'
               else if e = '\\' then some '\\'
               else if e = '/' then some '/'
               else if e = 'n' then some '\n'
               else if e = 't' then some '\t'
               else if e = 'r' then some '\r'
               else if e = 'b' then some (Char.ofNat 8)
               else if e = 'f' then some (Char.ofNat 12)
               else none).bind fun d =>
                (scanStr rest2).map fun r => (d :: r.1, r.2)
      else (scanStr rest).map fun r => (c :: r.1, r.2)

def digitsToNat (l : List Char) : Nat :=
  l.foldl (fun a c => a * 10 + (c.toNat - 48)) 0

/-- Read an unsigned integer; fail on a following `.`/`e`/`E`. -/
def scanInt (cs : List Char) : Option (Nat × List Char) :=
  let digs := cs.takeWhile Char.isDigit
  let rest := cs.dropWhile Char.isDigit
  if digs = [] then none
  else
    match rest with
    | [] => some (digitsToNat digs, [])
    | c :: _ =>
        if c = '.' ∨ c = 'e' ∨ c = 'E' then none
        else some (digitsToNat digs, rest)

mutual

/-- Fueled JSON value reader; the fuel bounds the nesting and is supplied
as the input length plus one, which every recursive descent respects
because each container level consumes at least one character. -/
def parseVal : Nat → List Char → Option (JVal × List Char)
  | 0, _ => none
  | fuel + 1, cs =>
      match skipWsJ cs with
      | [] => none
      | c :: rest =>
          if c = '"' then (scanStr rest).map fun r => (.jstr (String.mk r.1), r.2)
          else if c = braceL then parseObjBody fuel rest
          else if c = '[' then parseArrBody fuel rest
          else if c = 'n' then
            if startsWithL "ull".data rest then some (.jnull, rest.drop 3) else none
          else if c = 't' then
            if startsWithL "rue".data rest then some (.jbool true, rest.drop 3) else none
          else if c = 'f' then
            if startsWithL "alse".data rest then some (.jbool false, rest.drop 4) else none
          else if c = '-' then
            (scanInt rest).map fun r => (.jnum (-(r.1 : Int)), r.2)
          else if c.isDigit then
            (scanInt (c :: rest)).map fun r => (.jnum (r.1 : Int), r.2)
          else none

/-- After `[`: empty array or first element then more. -/
def parseArrBody : Nat → List Char → Option (JVal × List Char)
  | 0, _ => none
  | fuel + 1, cs =>
      match skipWsJ cs with
      | c :: rest =>
          if c = ']' then some (mkArr [], rest)
          else
            (parseVal fuel (c :: rest)).bind fun r =>
              parseArrMore fuel r.2 [r.1]
      | [] => none

def parseArrMore : Nat → List Char → List JVal → Option (JVal × List Char)
  | 0, _, _ => none
  | fuel + 1, cs, acc =>
      match skipWsJ cs with
      | c :: rest =>
          if c = ']' then some (mkArr acc.reverse, rest)
          else if c = ',' then
            (parseVal fuel rest).bind fun r => parseArrMore fuel r.2 (r.1 :: acc)
          else none
      | [] => none

/-- After the opening brace: empty object or first member then more. -/
def parseObjBody : Nat → List Char → Option (JVal × List Char)
  | 0, _ => none
  | fuel + 1, cs =>
      match skipWsJ cs with
      | c :: rest =>
          if c = braceR then some (mkObj [], rest)
          else if c = '"' then
            (scanStr rest).bind fun k =>
              match skipWsJ k.2 with
              | ':' :: rest2 =>
                  (parseVal fuel rest2).bind fun r =>
                    parseObjMore fuel r.2 [(String.mk k.1, r.1)]
              | _ => none
          else none
      | [] => none

def parseObjMore : Nat → List Char → List (String × JVal) →
    Option (JVal × List Char)
  | 0, _, _ => none
  | fuel + 1, cs, acc =>
      match skipWsJ cs with
      | c :: rest =>
          if c = braceR then some (mkObj acc.reverse, rest)
          else if c = ',' then
            match skipWsJ rest with
            | q :: rest1 =>
                if q = '"' then
                  (scanStr rest1).bind fun k =>
                    match skipWsJ k.2 with
                    | ':' :: rest2 =>
                        (parseVal fuel rest2).bind fun r =>
                          parseObjMore fuel r.2 ((String.mk k.1, r.1) :: acc)
                    | _ => none
                else none
            | [] => none
          else none
      | [] => none

end

/-- `JSON.parse` as used by `tryJSON`: whole-input read or failure. -/
def jsonDecode (s : String) : Option JVal :=
  (parseVal (s.data.length + 1) s.data).bind fun r =>
    if skipWsJ r.2 = [] then some r.1 else none

/-- P1 `tryJSON`:
strings are parsed (`catch` yields `{}`), truthy objects and arrays pass
through, everything else becomes `{}`. -/
def tryJSON (v : JVal) : JVal :=
  match v with
  | .jstr s => (jsonDecode s).getD (mkObj [])
  | .jobj fs => .jobj fs
  | .jarr es => .jarr es
  | _ => mkObj []

/-- The lead record returned by P1's `extractLead`: its fields are raw
JavaScript values — nothing coerces them to strings. -/
structure LeadJ where
  name : JVal
  phone : JVal
  email : JVal
  role : JVal
  inquiry : JVal
  market : JVal
  dealSize : JVal
  urgency : JVal

/-- P1 `extractLead` (`src/unnamed/part_001`, lines 50–77). -/
def extractLead (p : JVal) : LeadJ :=
  let lead := jsOr (tryJSON (getPath p ["outputs", "lead"]))
    (jsOr (tryJSON (getF p "lead"))
      (jsOr (tryJSON (getF p "structuredData"))
        (jsOr (tryJSON (getPath p ["analysis", "structuredData"])) (mkObj []))))
  let caller := jsOr (getPath p ["outputs", "caller"])
    (jsOr (getF p "caller") (mkObj []))
  let quals := jsOr (getPath p ["outputs", "qualifications"])
    (jsOr (getF p "qualifications") (mkObj []))
  { name := jsNn (getF lead "name") (jsNn (getF caller "name") (.jstr ""))
    phone := jsNn (getF lead "phone") (jsNn (getF caller "phone") (.jstr ""))
    email := jsNn (getF lead "email") (jsNn (getF caller "email") (.jstr ""))
    role := jsNn (getF lead "role") (jsNn (getF quals "role") (.jstr ""))
    inquiry := jsNn (getF lead "inquiry") (jsNn (getF quals "inquiry") (.jstr ""))
    market := jsNn (getF lead "market") (jsNn (getF quals "market") (.jstr ""))
    dealSize := jsNn (getF lead "dealSize") (jsNn (getF lead "deal_size")
      (jsNn (getF quals "deal_size") (.jstr "")))
    urgency := jsNn (getF lead "urgency") (jsNn (getF quals "urgency") (.jstr "")) }

/-- Is a JavaScript value a string that `trim` leaves unchanged? -/
def isTrimmedStr : JVal → Bool
  | .jstr s => jsTrim s = s
  | _ => false

/-! ## VE: the second variant of `src/unnamed/part_000` (`normalizeRole`) -/

/-- VE `safe`: `(v) => (v ?? '').toString().trim()`. -/
def safeVE (v : JVal) : String := jsTrim (jsToString (jsNn v (.jstr "")))

/-- VE `normalizeRole` (`src/unnamed/part_000`, lines 244–251): lowercase the
cleaned input and test the fixed vocabulary regexes in order. -/
def normalizeRole (r : JVal) : String :=
  let t := lowerStr (safeVE r)
  if hasSub t "owner" then "owner"
  else if hasSub t "buyer" then "buyer"
  else if hasSub t "lender" then "lender"
  else if hasSub t "general" || hasSub t "inquiry" then "general"
  else ""

/-! ## VA: the first variant of `src/index.js` -/

/-- VA `safeStr`: strings are trimmed, `null`/`undefined` become `''`, other
values are `String(x)` (untrimmed). -/
def safeStr (x : JVal) : String :=
  match x with
  | .jnull => ""
  | .jundefined => ""
  | .jstr s => jsTrim s
  | v => jsToString v

def capFirst (s : String) : String :=
  match s.data with
  | [] => ""
  | c :: cs => String.mk (Char.toUpper c :: cs)

/-- VA `buildSummary`: throws when `role` is truthy but not a string
(`role.toLowerCase` is then not a function). -/
def buildSummaryE (role inquiry market dealSize urgency : JVal) :
    Except Unit String := do
  let r ←
    if truthy role then
      match role with
      | .jstr s => Except.ok (lowerStr s)
      | _ => Except.error ()
    else Except.ok "caller"
  let parts :=
    [capFirst r ++ " interested in " ++
      (if truthy inquiry then jsToString inquiry else "a property transaction")]
    ++ (if truthy market then ["in " ++ jsToString market] else [])
    ++ (if truthy dealSize then ["(budget/deal " ++ jsToString dealSize ++ ")"] else [])
    ++ (if truthy urgency then ["timeline " ++ jsToString urgency] else [])
  pure (joinWith " " parts ++ ".")

/-- VA `trimRaw`: the compact object stringified into the Raw cell; `at` is
`p?.timestamp || Date.now()` with the clock value passed in. -/
def trimRawVA (p : JVal) (nowMs : Int) : JVal :=
  mkObj
    [("brokerage", jsOr (getPath p ["assistant", "metadata", "brokerageName"]) (.jstr "")),
     ("caller", mkObj
       [("name", jsOr (getF (getF p "caller") "name") (.jstr "")),
        ("phone", jsOr (getF (getF p "caller") "phone") (.jstr "")),
        ("email", jsOr (getF (getF p "caller") "email") (.jstr ""))]),
     ("qualifications", mkObj
       [("role", jsOr (getF (getF p "qualifications") "role") (.jstr "")),
        ("inquiry", jsOr (getF (getF p "qualifications") "inquiry") (.jstr "")),
        ("market", jsOr (getF (getF p "qualifications") "market") (.jstr "")),
        ("deal_size", jsOr (getF (getF p "qualifications") "deal_size") (.jstr "")),
        ("urgency", jsOr (getF (getF p "qualifications") "urgency") (.jstr ""))]),
     ("summary", jsOr (jsOr (getF p "summary") (getF p "final_summary")) (.jstr "")),
     ("at", jsOr (getF p "timestamp") (.jnum nowMs))]

/-- The VA row (`src/index.js`, lines 110–129). -/
def rowVAE (body : JVal) (nowIso : String) (nowMs : Int) :
    Except Unit (List String) := do
  let meta := getPath body ["assistant", "metadata"]
  let caller := getF body "caller"
  let quals := getF body "qualifications"
  let summaryText := safeStr (jsOr (jsOr (getF body "summary")
    (getF body "final_summary")) (.jstr ""))
  let summaryCell ←
    if summaryText ≠ "" then Except.ok summaryText
    else buildSummaryE (getF quals "role") (getF quals "inquiry") (getF quals "market") (getF quals "deal_size") (getF quals "urgency")
  pure
    [tsFormat nowIso,
     safeStr (jsOr (getF meta "brokerageName") (.jstr "")),
     safeStr (jsOr (getF caller "name") (.jstr "")),
     safeStr (jsOr (getF caller "phone") (.jstr "")),
     safeStr (jsOr (getF caller "email") (.jstr "")),
     safeStr (jsOr (getF quals "role") (.jstr "")),
     safeStr (jsOr (getF quals "inquiry") (.jstr "")),
     safeStr (jsOr (getF quals "market") (.jstr "")),
     safeStr (jsOr (getF quals "deal_size") (.jstr "")),
     safeStr (jsOr (getF quals "urgency") (.jstr "")),
     safeStr (.jstr summaryCell),
     strV (trimRawVA body nowMs)]

/-- The VA `/vapi/webhook` handler: build the row, await the append, and
answer `{ok:true}` or — from the `catch` — `{ok:false, error}`. -/
def handleVA (body : JVal) (nowIso : String) (nowMs : Int)
    (appendErr : Option String) : Resp :=
  match rowVAE (bodyNorm body) nowIso nowMs with
  | .error _ => ⟨200, false, false, none, some "TypeError: toLowerCase is not a function"⟩
  | .ok _ =>
      match appendErr with
      | none => ⟨200, true, false, none, none⟩
      | some e => ⟨200, false, false, none, some e⟩

/-! ## Concrete payloads used by the closed theorems below -/

/-- A payload carrying both a structured-output `lead.name` and a
`caller.name` that differ: `{"lead":{"name":"Alice"},"caller":{"name":"Bob"}}`. -/
def payloadC1 : JVal :=
  mkObj [("lead", mkObj [("name", .jstr "Alice")]),
         ("caller", mkObj [("name", .jstr "Bob")])]

/-- A payload whose only lead-bearing field is an untrimmed caller name:
`{"caller":{"name":"  John  "}}`. -/
def payloadC4 : JVal := mkObj [("caller", mkObj [("name", .jstr "  John  ")])]

/-- The empty payload `{}`. -/
def payloadEmpty : JVal := mkObj []

/-- A meaningful payload with a call id:
`{"call_id":"abc","caller":{"name":"A"}}`. -/
def payloadC3 : JVal :=
  mkObj [("call_id", .jstr "abc"), ("caller", mkObj [("name", .jstr "A")])]

/-- Same call id, different caller data:
`{"call_id":"abc","caller":{"name":"B"}}`. -/
def payloadC3b : JVal :=
  mkObj [("call_id", .jstr "abc"), ("caller", mkObj [("name", .jstr "B")])]

/-- A contentless event that still carries the call id:
`{"call_id":"abc"}`. -/
def payloadC10a : JVal := mkObj [("call_id", .jstr "abc")]

/-- `{"caller":{"name":"A"}}`. -/
def payloadC7a : JVal := mkObj [("caller", mkObj [("name", .jstr "A")])]

/-- `{"caller":{"name":"A"},"x":"y"}` — same nine lead-bearing cells as
`payloadC7a`, one extra payload field. -/
def payloadC7b : JVal :=
  mkObj [("caller", mkObj [("name", .jstr "A")]), ("x", .jstr "y")]

/-- A concrete runtime ISO timestamp. -/
def isoW : String := "2026-10-11T12:34:56.789Z"

/-! ## Shared lemmas -/

theorem dropWhile_head_false {q : Char → Bool} {l : List Char} {a : Char}
    (h : (l.dropWhile q).head? = some a) : q a = false := by
  have := List.head?_dropWhile_not q l
  rw [h] at this
  exact this

theorem dropWhile_self_of_head {q : Char → Bool} {l : List Char}
    (h : ∀ a, l.head? = some a → q a = false) : l.dropWhile q = l := by
  cases l with
  | nil => rfl
  | cons c cs =>
      have := h c rfl
      simp [List.dropWhile_cons, this]

theorem dropWhile_twice (q : Char → Bool) (l : List Char) :
    (l.dropWhile q).dropWhile q = l.dropWhile q := by
  apply dropWhile_self_of_head
  intro a ha
  exact dropWhile_head_false ha

theorem dropWhile_getLast? {q : Char → Bool} :
    ∀ l : List Char, l.dropWhile q ≠ [] →
      (l.dropWhile q).getLast? = l.getLast? := by
  intro l
  induction l with
  | nil => intro h; simp at h
  | cons c cs ih =>
      intro h
      by_cases hc : q c
      · rw [List.dropWhile_cons_of_pos hc] at h ⊢
        have hcs : cs ≠ [] := by
          intro he; rw [he] at h; simp at h
        rw [ih h]
        cases cs with
        | nil => exact absurd rfl hcs
        | cons b bs => rw [List.getLast?_cons_cons]
      · rw [List.dropWhile_cons_of_neg hc]

/-- `trim` is idempotent on character lists. -/
theorem jsTrimL_idem (l : List Char) : jsTrimL (jsTrimL l) = jsTrimL l := by
  unfold jsTrimL
  set x := l.dropWhile wsC with hx
  set y := x.reverse.dropWhile wsC with hy
  have h1 : y.reverse.dropWhile wsC = y.reverse := by
    apply dropWhile_self_of_head
    intro a ha
    rw [List.head?_reverse] at ha
    by_cases hynil : y = []
    · rw [hynil] at ha; simp at ha
    · rw [hy] at hynil
      rw [hy, dropWhile_getLast? _ hynil, List.getLast?_reverse] at ha
      exact dropWhile_head_false ha
  rw [h1, List.reverse_reverse, hy, dropWhile_twice]

/-- `s.trim()` is idempotent. -/
theorem jsTrim_idem (s : String) : jsTrim (jsTrim s) = jsTrim s := by
  unfold jsTrim
  exact congrArg String.mk (jsTrimL_idem s.data)

/-- Every output of `clean` is a trimmed string. -/
theorem clean_trimmed (v : JVal) : jsTrim (clean v) = clean v := by
  cases v <;> simp [clean] <;> first
    | exact jsTrim_idem _
    | rfl

theorem handleAppend_seen (n : String) (st1 : ServerState) (p : JVal)
    (m : Lead) (e : Option String) :
    (handleAppend n st1 p m e).state.seen = st1.seen := by
  unfold handleAppend
  split <;> rfl

theorem handleAppend_attempted (n : String) (st1 : ServerState) (p : JVal)
    (m : Lead) (e : Option String) :
    (handleAppend n st1 p m e).attempted = true := by
  unfold handleAppend
  split <;> rfl

theorem stAdd_mem {c : String} {st : ServerState} (x : String)
    (h : c ∈ st.seen) : c ∈ (stAdd st x).seen := by
  unfold stAdd
  split
  · exact h
  · exact List.mem_cons_of_mem _ h

/-- The VC gate: a lead with no meaningful field short-circuits the handler. -/
theorem handleVC_gate_skip {n : String} {st : ServerState} {b : JVal}
    {e : Option String} {m : Lead} (hm : mergedOfE (bodyNorm b) = .ok m)
    (hg : hasAnyLeadField m = false) :
    handleVC n st b e = ⟨st, skipResp "no useful fields yet", false⟩ := by
  unfold handleVC
  rw [hm]
  simp [hg]

/-- The VC dedupe: an already-seen call id short-circuits the handler. -/
theorem handleVC_dedupe_skip {n : String} {st : ServerState} {b : JVal}
    {e : Option String} {m : Lead} {c : String}
    (hm : mergedOfE (bodyNorm b) = .ok m) (hg : hasAnyLeadField m = true)
    (hc : getCallIdVC (bodyNorm b) = c) (hne : c ≠ "") (hseen : c ∈ st.seen) :
    handleVC n st b e = ⟨st, skipResp "already wrote for this call", false⟩ := by
  unfold handleVC
  rw [hm]
  dsimp only
  rw [if_neg (by simp [hg])]
  rw [if_pos (by rw [hc]; exact ⟨hne, hseen⟩)]

/-- The VC write path with a resolving append. -/
theorem handleVC_append_ok {n : String} {st : ServerState} {b : JVal}
    {m : Lead} {c : String}
    (hm : mergedOfE (bodyNorm b) = .ok m) (hg : hasAnyLeadField m = true)
    (hc : getCallIdVC (bodyNorm b) = c) (hne : c ≠ "") (hnew : c ∉ st.seen) :
    handleVC n st b none =
      ⟨⟨c :: st.seen, st.rows ++ [rowVC n (brokerageVC (bodyNorm b)) m c]⟩,
       wroteResp, true⟩ := by
  unfold handleVC
  rw [hm]
  dsimp only
  rw [if_neg (by simp [hg])]
  rw [if_neg (by rw [hc]; exact fun h => hnew h.2)]
  unfold handleAppend stAdd
  rw [hc, if_neg hne]

/-- The VC write path with a rejected append: the call id stays recorded,
no row is produced, and the response is `{ok:false, error}`. -/
theorem handleVC_append_err {n : String} {st : ServerState} {b : JVal}
    {m : Lead} {c : String} {e : String}
    (hm : mergedOfE (bodyNorm b) = .ok m) (hg : hasAnyLeadField m = true)
    (hc : getCallIdVC (bodyNorm b) = c) (hne : c ≠ "") (hnew : c ∉ st.seen) :
    handleVC n st b (some e) =
      ⟨⟨c :: st.seen, st.rows⟩, errResp e, true⟩ := by
  unfold handleVC
  rw [hm]
  dsimp only
  rw [if_neg (by simp [hg])]
  rw [if_neg (by rw [hc]; exact fun h => hnew h.2)]
  unfold handleAppend stAdd
  rw [hc, if_neg hne]

/-- The seen-set only grows. -/
theorem handleVC_seen_mono {c : String} {n : String} {st : ServerState}
    {b : JVal} {e : Option String} (h : c ∈ st.seen) :
    c ∈ (handleVC n st b e).state.seen := by
  unfold handleVC
  split
  · exact h
  · split
    · exact h
    · split
      · exact h
      · rw [handleAppend_seen]
        exact stAdd_mem _ h

theorem runVC_seen_mono {c : String} :
    ∀ (rs : List (String × JVal × Option String)) (st : ServerState),
      c ∈ st.seen → c ∈ (runVC st rs).seen := by
  intro rs
  induction rs with
  | nil => intro st h; exact h
  | cons r rest ih =>
      intro st h
      exact ih _ (handleVC_seen_mono h)

/-- Once a call id is in the seen set, a request bearing it can neither
reach the append call nor change the state. -/
theorem handleVC_noop_of_seen {c : String} {n : String} {st : ServerState}
    {b : JVal} {e : Option String} (hseen : c ∈ st.seen)
    (hc : getCallIdVC (bodyNorm b) = c) (hne : c ≠ "") :
    (handleVC n st b e).attempted = false ∧ (handleVC n st b e).state = st := by
  unfold handleVC
  split
  · exact ⟨rfl, rfl⟩
  · split
    · exact ⟨rfl, rfl⟩
    · split
      · exact ⟨rfl, rfl⟩
      · next hcond =>
          rw [hc] at hcond
          exact absurd ⟨hne, hseen⟩ hcond

theorem replFirst_split {c : Char} {rep : List Char} {post : List Char} :
    ∀ {pre : List Char}, c ∉ pre →
      replFirst c rep (pre ++ c :: post) = pre ++ (rep ++ post) := by
  intro pre
  induction pre with
  | nil => intro _; simp [replFirst]
  | cons a as ih =>
      intro h
      have hac : ¬(a = c) := fun he => h (he ▸ List.mem_cons_self a as)
      have htl : c ∉ as := fun hmem => h (List.mem_cons_of_mem _ hmem)
      simp only [List.cons_append, replFirst, if_neg hac, List.append_eq, ih htl]

/-- The timestamp formatting of every translated row builder: `T` becomes a
space and the trailing `Z` becomes ` UTC`. -/
theorem tsFormat_split {d t : List Char} (hT : 'T' ∉ d) (hZd : 'Z' ∉ d)
    (hZt : 'Z' ∉ t) :
    tsFormat (String.mk (d ++ 'T' :: (t ++ ['Z']))) =
      String.mk (d ++ ' ' :: (t ++ " UTC".data)) := by
  unfold tsFormat
  have hdata : (String.mk (d ++ 'T' :: (t ++ ['Z']))).data
      = d ++ 'T' :: (t ++ ['Z']) := rfl
  rw [hdata, replFirst_split hT]
  have hsp : (" " : String).data = [' '] := rfl
  have hre : d ++ ([' '] ++ (t ++ ['Z'])) = (d ++ ' ' :: t) ++ ('Z' :: []) := by
    simp
  rw [hsp, hre]
  have hZ2 : 'Z' ∉ d ++ ' ' :: t := by
    intro hmem
    rcases List.mem_append.1 hmem with h1 | h1
    · exact hZd h1
    · rcases List.mem_cons.1 h1 with h2 | h2
      · exact absurd h2 (by decide)
      · exact hZt h2
  rw [replFirst_split hZ2]
  simp

theorem smallRawVC_le (s : String) : (smallRawVC s).length ≤ 1000 := by
  unfold smallRawVC
  split
  · have h1 : (String.mk (s.data.take 997 ++ "...".data)).length
        = (s.data.take 997).length + ("...".data).length := by
      show (s.data.take 997 ++ "...".data).length = _
      simp
    have h2 : ("...".data).length = 3 := rfl
    have h3 : (s.data.take 997).length ≤ 997 := by
      simp [List.length_take]
    omega
  · next h => omega

/-! ## Claim theorems -/

/-- Claim C1.  The spec says the structured-output `lead.name` wins over a
differing `caller.name`; on the payload
`{"lead":{"name":"Alice"},"caller":{"name":"Bob"}}` the merged lead of the
final `src/index.js` handler has name `"Bob"`: the `...cq` spread comes
after `...(leadSO || {})` and its always-present `name` binding overrides
the structured-output value, so the caller value wins, contradicting the
claim and the handler's own comment. -/
theorem C1_caller_overrides_structured_output :
    mergedOfE (bodyNorm payloadC1) = Except.ok
      { name := "Bob", phone := "", email := "", role := "", inquiry := "",
        market := "", dealSize := "", urgency := "", summary := "" } ∧
    getF (getF payloadC1 "lead") "name" = .jstr "Alice" ∧
    ("Bob" : String) ≠ "Alice" :=
  ⟨rfl, rfl, by decide⟩

/-- Claim C2, counterexample.  The `src/unnamed/part_002` handler has no
gate: on the empty payload `{}` every lead-bearing cell is empty, yet the
append call is still made and the acknowledgement carries no `skipped`
marker. -/
theorem C2_part002_appends_without_gate :
    rowCoreVG payloadEmpty =
      [.jstr "", .jstr "", .jstr "", .jstr "", .jstr "", .jstr "", .jstr "",
       .jstr "", .jstr ""] ∧
    (handleVG payloadEmpty isoW none).2.1 = true ∧
    (handleVG payloadEmpty isoW none).1.skipped = none :=
  ⟨rfl, rfl, rfl⟩

/-- Claim C2, amended.  In the variants with the `hasAnyLeadField` gate
(final `src/index.js` handler; identically the second variant and the first
`part_000` variant): whenever extraction succeeds and yields a lead with no
meaningful field, the handler makes no append call, leaves the state
untouched, and acknowledges with `{ok:true, skipped:'no useful fields
yet'}`. -/
theorem C2_vc_gate_skips (n : String) (st : ServerState) (b : JVal)
    (e : Option String) (m : Lead) (hm : mergedOfE (bodyNorm b) = .ok m)
    (hg : hasAnyLeadField m = false) :
    handleVC n st b e = ⟨st, skipResp "no useful fields yet", false⟩ :=
  handleVC_gate_skip hm hg

/-- Claim C2, witness: the empty payload is gated out. -/
theorem C2_vc_gate_skips_witness :
    handleVC isoW ⟨[], []⟩ payloadEmpty none =
      ⟨⟨[], []⟩, skipResp "no useful fields yet", false⟩ :=
  C2_vc_gate_skips isoW ⟨[], []⟩ payloadEmpty none emptyLead rfl rfl

/-- Claim C4, counterexample.  `extractLead` of `src/unnamed/part_001`
passes values through with `??` and no coercion: on
`{"caller":{"name":"  John  "}}` the extracted `name` is the untrimmed
string `"  John  "`, so not every field of its lead is a trimmed string. -/
theorem C4_extractLead_unnormalized :
    (extractLead payloadC4).name = .jstr "  John  " ∧
    isTrimmedStr (extractLead payloadC4).name = false :=
  ⟨rfl, by decide⟩

/-- Claim C4, amended.  For the `clean`-based extractor (`normalize` of the
final `src/index.js` variant): every field of the produced Lead is a
trimmed string for every input value, the empty object with an undefined
summary yields the all-empty Lead, and `null`/`undefined` inputs to `clean`
become the empty string. -/
theorem C4_normalize_totality (raw s : JVal) :
    (jsTrim (normalizeVC raw s).name = (normalizeVC raw s).name ∧
     jsTrim (normalizeVC raw s).phone = (normalizeVC raw s).phone ∧
     jsTrim (normalizeVC raw s).email = (normalizeVC raw s).email ∧
     jsTrim (normalizeVC raw s).role = (normalizeVC raw s).role ∧
     jsTrim (normalizeVC raw s).inquiry = (normalizeVC raw s).inquiry ∧
     jsTrim (normalizeVC raw s).market = (normalizeVC raw s).market ∧
     jsTrim (normalizeVC raw s).dealSize = (normalizeVC raw s).dealSize ∧
     jsTrim (normalizeVC raw s).urgency = (normalizeVC raw s).urgency ∧
     jsTrim (normalizeVC raw s).summary = (normalizeVC raw s).summary) ∧
    normalizeVC (mkObj []) .jundefined = emptyLead ∧
    clean .jnull = "" ∧ clean .jundefined = "" :=
  ⟨⟨clean_trimmed _, clean_trimmed _, clean_trimmed _, clean_trimmed _,
    clean_trimmed _, clean_trimmed _, clean_trimmed _, clean_trimmed _,
    clean_trimmed _⟩, rfl, rfl, rfl⟩

/-- Claim C7, counterexample.  In the `src/unnamed/part_002` variant the Raw
cell is `JSON.stringify(p).slice(0, 50000)` over the full original payload:
two payloads with identical lead-bearing cells produce different Raw cells,
so the Raw cell is not derived from the extracted lead (and its budget is
50000, not 400–1000). -/
theorem C7_vg_raw_uses_full_payload :
    rowCoreVG payloadC7a = rowCoreVG payloadC7b ∧
    rawCellVG payloadC7a ≠ rawCellVG payloadC7b :=
  ⟨rfl, by decide⟩

/-- Claim C7, amended.  In the final `src/index.js` variant the Raw cell is
`smallRaw({lead: merged, callId})` — a function of the normalized Lead and
the call id only — and its length never exceeds 1000 characters. -/
theorem C7_vc_raw_bounded_and_lead_derived (m : Lead) (c : String) :
    (rawCellVC m c).length ≤ 1000 ∧
    rawCellVC m c =
      smallRawVC (strV (mkObj [("lead", leadToJVal m), ("callId", .jstr c)])) :=
  ⟨smallRawVC_le _, rfl⟩

/-- Claim C5.  Both translated `/vapi/webhook` handlers (the final variant
with gate/dedupe and the first variant) answer HTTP 200 on every path —
success, skip, extraction throw, and append rejection — and the body is
`ok:true` or `ok:false` with a stringified error. -/
theorem C5_always_http_200 (n : String) (st : ServerState) (b : JVal)
    (e : Option String) (iso : String) (ms : Int) (e2 : Option String) :
    (handleVC n st b e).resp.status = 200 ∧
    ((handleVC n st b e).resp.ok || (handleVC n st b e).resp.error.isSome)
      = true ∧
    (handleVA b iso ms e2).status = 200 ∧
    ((handleVA b iso ms e2).ok || (handleVA b iso ms e2).error.isSome)
      = true := by
  refine ⟨?_, ?_, ?_, ?_⟩
  · unfold handleVC handleAppend
    repeat' split
    all_goals rfl
  · unfold handleVC handleAppend
    repeat' split
    all_goals rfl
  · unfold handleVA
    repeat' split
    all_goals rfl
  · unfold handleVA
    repeat' split
    all_goals rfl

/-- Claim C6.  For every well-formed runtime ISO instant (a date part, `T`,
a time part, `Z`) the final-variant row is exactly the twelve cells
Timestamp, Brokerage, Name, Phone, Email, Role, Inquiry, Market, Deal Size,
Urgency, Summary, Raw in that order, with the Timestamp cell equal to the
ISO instant with `T` replaced by a space and the trailing `Z` by ` UTC`;
the `part_002` row likewise has twelve cells with the same formatted
timestamp first. -/
theorem C6_row_twelve_cells (d t : List Char) (brok : String) (m : Lead)
    (cid : String) (p : JVal) (hT : 'T' ∉ d) (hZd : 'Z' ∉ d)
    (hZt : 'Z' ∉ t) :
    rowVC (String.mk (d ++ 'T' :: (t ++ ['Z']))) brok m cid =
      [String.mk (d ++ ' ' :: (t ++ " UTC".data)), brok, m.name, m.phone,
       m.email, m.role, m.inquiry, m.market, m.dealSize, m.urgency,
       m.summary, rawCellVC m cid] ∧
    (rowVC (String.mk (d ++ 'T' :: (t ++ ['Z']))) brok m cid).length = 12 ∧
    (rowVG p (String.mk (d ++ 'T' :: (t ++ ['Z'])))).length = 12 ∧
    (rowVG p (String.mk (d ++ 'T' :: (t ++ ['Z'])))).head? =
      some (.jstr (String.mk (d ++ ' ' :: (t ++ " UTC".data)))) := by
  have hts := tsFormat_split hT hZd hZt
  refine ⟨?_, rfl, ?_, ?_⟩
  · unfold rowVC
    rw [hts]
  · unfold rowVG rowCoreVG
    rfl
  · unfold rowVG
    rw [hts]
    rfl

/-- Claim C6, witness at a concrete instant. -/
theorem C6_row_twelve_cells_witness :
    rowVC "2026-10-11T12:34:56.789Z" "Ariel Property Advisors" emptyLead "abc"
      = ["2026-10-11 12:34:56.789 UTC", "Ariel Property Advisors", "", "",
         "", "", "", "", "", "", "", rawCellVC emptyLead "abc"] ∧
    (rowVG payloadEmpty "2026-10-11T12:34:56.789Z").length = 12 := by
  have h := C6_row_twelve_cells "2026-10-11".data "12:34:56.789".data
    "Ariel Property Advisors" emptyLead "abc" payloadEmpty
    (by decide) (by decide) (by decide)
  exact ⟨h.1, h.2.2.1⟩

/-- Claim C8.  VE `normalizeRole` maps every input string into the closed
vocabulary {owner, buyer, lender, general, ""} by case-insensitive
substring match on the trimmed input, testing the vocabulary in the listed
order, and yields the empty string when nothing matches — free text never
passes through. -/
theorem C8_normalizeRole_closed_vocabulary (s : String) :
    (normalizeRole (.jstr s) = "owner" ∨ normalizeRole (.jstr s) = "buyer" ∨
     normalizeRole (.jstr s) = "lender" ∨
     normalizeRole (.jstr s) = "general" ∨ normalizeRole (.jstr s) = "") ∧
    (hasSub (lowerStr (safeVE (.jstr s))) "owner" = true →
      normalizeRole (.jstr s) = "owner") ∧
    (hasSub (lowerStr (safeVE (.jstr s))) "owner" = false →
     hasSub (lowerStr (safeVE (.jstr s))) "buyer" = true →
      normalizeRole (.jstr s) = "buyer") ∧
    (hasSub (lowerStr (safeVE (.jstr s))) "owner" = false →
     hasSub (lowerStr (safeVE (.jstr s))) "buyer" = false →
     hasSub (lowerStr (safeVE (.jstr s))) "lender" = true →
      normalizeRole (.jstr s) = "lender") ∧
    (hasSub (lowerStr (safeVE (.jstr s))) "owner" = false →
     hasSub (lowerStr (safeVE (.jstr s))) "buyer" = false →
     hasSub (lowerStr (safeVE (.jstr s))) "lender" = false →
     (hasSub (lowerStr (safeVE (.jstr s))) "general" ||
      hasSub (lowerStr (safeVE (.jstr s))) "inquiry") = true →
      normalizeRole (.jstr s) = "general") ∧
    (hasSub (lowerStr (safeVE (.jstr s))) "owner" = false →
     hasSub (lowerStr (safeVE (.jstr s))) "buyer" = false →
     hasSub (lowerStr (safeVE (.jstr s))) "lender" = false →
     hasSub (lowerStr (safeVE (.jstr s))) "general" = false →
     hasSub (lowerStr (safeVE (.jstr s))) "inquiry" = false →
      normalizeRole (.jstr s) = "") := by
  cases h1 : hasSub (lowerStr (safeVE (.jstr s))) "owner" <;>
    cases h2 : hasSub (lowerStr (safeVE (.jstr s))) "buyer" <;>
    cases h3 : hasSub (lowerStr (safeVE (.jstr s))) "lender" <;>
    cases h4 : hasSub (lowerStr (safeVE (.jstr s))) "general" <;>
    cases h5 : hasSub (lowerStr (safeVE (.jstr s))) "inquiry" <;>
    simp [normalizeRole, h1, h2, h3, h4, h5]

/-- Claim C8, witness: a match in each position of the vocabulary and a
no-match input. -/
theorem C8_normalizeRole_witness :
    normalizeRole (.jstr "Property OWNER") = "owner" ∧
    normalizeRole (.jstr "first-time buyer") = "buyer" ∧
    normalizeRole (.jstr "hedge fund") = "" :=
  ⟨(C8_normalizeRole_closed_vocabulary "Property OWNER").2.1 (by decide),
   (C8_normalizeRole_closed_vocabulary "first-time buyer").2.2.1 (by decide)
     (by decide),
   (C8_normalizeRole_closed_vocabulary "hedge fund").2.2.2.2.2 (by decide)
     (by decide) (by decide) (by decide) (by decide)⟩

/-- Claim C3.  Two sequential requests with the same non-empty call id and
meaningful lead fields: the first (with a resolving append) writes exactly
one row, the second is answered `{ok:true, skipped:'already wrote for this
call'}`, makes no append call, and leaves the state unchanged. -/
theorem C3_dedupe_idempotent (n₁ n₂ : String) (st : ServerState)
    (b₁ b₂ : JVal) (e₂ : Option String) (m₁ m₂ : Lead) (c : String)
    (hm₁ : mergedOfE (bodyNorm b₁) = .ok m₁)
    (hg₁ : hasAnyLeadField m₁ = true)
    (hm₂ : mergedOfE (bodyNorm b₂) = .ok m₂)
    (hg₂ : hasAnyLeadField m₂ = true)
    (hc₁ : getCallIdVC (bodyNorm b₁) = c)
    (hc₂ : getCallIdVC (bodyNorm b₂) = c)
    (hne : c ≠ "") (hnew : c ∉ st.seen) :
    (handleVC n₁ st b₁ none).state.rows
      = st.rows ++ [rowVC n₁ (brokerageVC (bodyNorm b₁)) m₁ c] ∧
    handleVC n₂ (handleVC n₁ st b₁ none).state b₂ e₂
      = ⟨(handleVC n₁ st b₁ none).state,
         skipResp "already wrote for this call", false⟩ := by
  have h1 := @handleVC_append_ok n₁ st b₁ m₁ c hm₁ hg₁ hc₁ hne hnew
  constructor
  · rw [h1]
  · rw [h1]
    exact handleVC_dedupe_skip hm₂ hg₂ hc₂ hne (List.mem_cons_self _ _)

/-- Claim C3, witness: `{"call_id":"abc","caller":{"name":"A"}}` then
`{"call_id":"abc","caller":{"name":"B"}}` from the empty state. -/
theorem C3_dedupe_idempotent_witness :
    (handleVC isoW ⟨[], []⟩ payloadC3 none).state.rows
      = [] ++ [rowVC isoW (brokerageVC (bodyNorm payloadC3))
          ⟨"A", "", "", "", "", "", "", "", ""⟩ "abc"] ∧
    handleVC isoW (handleVC isoW ⟨[], []⟩ payloadC3 none).state payloadC3b none
      = ⟨(handleVC isoW ⟨[], []⟩ payloadC3 none).state,
         skipResp "already wrote for this call", false⟩ :=
  C3_dedupe_idempotent isoW isoW ⟨[], []⟩ payloadC3 payloadC3b none
    ⟨"A", "", "", "", "", "", "", "", ""⟩
    ⟨"B", "", "", "", "", "", "", "", ""⟩ "abc"
    rfl rfl rfl rfl rfl rfl (by decide) (by decide)

/-- Claim C9.  If the append rejects for a request with a fresh non-empty
call id and meaningful fields, the id is already in the seen set (inserted
before the await, not removed by the catch), no row is produced, the
response is `{ok:false, error}`; the id survives any batch of later
requests, and any later request bearing the same id never reaches the
append call and leaves the state unchanged — no row is ever written for
that call. -/
theorem C9_failed_append_blocks_call (n n₂ : String) (st : ServerState)
    (b b₂ : JVal) (e : String) (e₂ : Option String) (m : Lead) (c : String)
    (reqs : List (String × JVal × Option String))
    (hm : mergedOfE (bodyNorm b) = .ok m) (hg : hasAnyLeadField m = true)
    (hc : getCallIdVC (bodyNorm b) = c) (hne : c ≠ "") (hnew : c ∉ st.seen)
    (hc₂ : getCallIdVC (bodyNorm b₂) = c) :
    handleVC n st b (some e) = ⟨⟨c :: st.seen, st.rows⟩, errResp e, true⟩ ∧
    c ∈ (runVC ⟨c :: st.seen, st.rows⟩ reqs).seen ∧
    (handleVC n₂ (runVC ⟨c :: st.seen, st.rows⟩ reqs) b₂ e₂).attempted
      = false ∧
    (handleVC n₂ (runVC ⟨c :: st.seen, st.rows⟩ reqs) b₂ e₂).state
      = runVC ⟨c :: st.seen, st.rows⟩ reqs := by
  have h1 := @handleVC_append_err n st b m c e hm hg hc hne hnew
  have hmem : c ∈ (runVC ⟨c :: st.seen, st.rows⟩ reqs).seen :=
    runVC_seen_mono reqs _ (List.mem_cons_self _ _)
  have h2 := @handleVC_noop_of_seen c n₂ (runVC ⟨c :: st.seen, st.rows⟩ reqs) b₂ e₂ hmem hc₂ hne
  exact ⟨h1, hmem, h2.1, h2.2⟩

/-- Claim C9, witness: a failed append for call `abc`, one interleaved
unrelated request, then a retry bearing `abc`. -/
theorem C9_failed_append_blocks_call_witness :
    handleVC isoW ⟨[], []⟩ payloadC3 (some "Error: quota")
      = ⟨⟨["abc"], []⟩, errResp "Error: quota", true⟩ ∧
    "abc" ∈ (runVC ⟨["abc"], []⟩ [(isoW, payloadC7a, none)]).seen ∧
    (handleVC isoW (runVC ⟨["abc"], []⟩ [(isoW, payloadC7a, none)])
      payloadC3b none).attempted = false ∧
    (handleVC isoW (runVC ⟨["abc"], []⟩ [(isoW, payloadC7a, none)])
      payloadC3b none).state
      = runVC ⟨["abc"], []⟩ [(isoW, payloadC7a, none)] :=
  C9_failed_append_blocks_call isoW isoW ⟨[], []⟩ payloadC3 payloadC3b
    "Error: quota" none ⟨"A", "", "", "", "", "", "", "", ""⟩ "abc"
    [(isoW, payloadC7a, none)] rfl rfl rfl (by decide) (by decide) rfl

theorem handleVC_noid_seen {n : String} {st : ServerState} {b : JVal}
    {e : Option String} (h : getCallIdVC (bodyNorm b) = "") :
    (handleVC n st b e).state.seen = st.seen := by
  unfold handleVC
  split
  · rfl
  · split
    · rfl
    · split
      · rfl
      · rw [handleAppend_seen, h]
        unfold stAdd
        rw [if_pos rfl]

/-- Claim C10.  (i) A request whose merged lead has no meaningful field
leaves the state — in particular the seen set — untouched and is skipped;
(ii) any call id that enters the seen set during a request was that
request's call id and the request reached the append call; (iii) an early
contentless event does not block a later contentful event with the same
call id from writing its row. -/
theorem C10_gate_precedes_dedupe :
    (∀ (n : String) (st : ServerState) (b : JVal) (e : Option String)
       (m : Lead), mergedOfE (bodyNorm b) = .ok m →
       hasAnyLeadField m = false →
       (handleVC n st b e).state = st ∧
       (handleVC n st b e).resp = skipResp "no useful fields yet" ∧
       (handleVC n st b e).attempted = false) ∧
    (∀ (n : String) (st : ServerState) (b : JVal) (e : Option String)
       (c : String), c ∉ st.seen → c ∈ (handleVC n st b e).state.seen →
       (handleVC n st b e).attempted = true ∧
       getCallIdVC (bodyNorm b) = c) ∧
    (∀ (n₁ n₂ : String) (st : ServerState) (b₁ b₂ : JVal)
       (e₁ : Option String) (m₁ m₂ : Lead) (c : String),
       mergedOfE (bodyNorm b₁) = .ok m₁ → hasAnyLeadField m₁ = false →
       mergedOfE (bodyNorm b₂) = .ok m₂ → hasAnyLeadField m₂ = true →
       getCallIdVC (bodyNorm b₂) = c → c ≠ "" → c ∉ st.seen →
       handleVC n₂ (handleVC n₁ st b₁ e₁).state b₂ none =
         ⟨⟨c :: st.seen,
           st.rows ++ [rowVC n₂ (brokerageVC (bodyNorm b₂)) m₂ c]⟩,
          wroteResp, true⟩) := by
  refine ⟨?_, ?_, ?_⟩
  · intro n st b e m hm hg
    rw [handleVC_gate_skip hm hg]
    exact ⟨rfl, rfl, rfl⟩
  · intro n st b e c hnot hmem
    cases hm : mergedOfE (bodyNorm b) with
    | error u =>
        have heq : handleVC n st b e
            = ⟨st, errResp "TypeError: toLowerCase is not a function",
               false⟩ := by
          unfold handleVC
          rw [hm]
        rw [heq] at hmem
        exact absurd hmem hnot
    | ok m =>
        by_cases hg : hasAnyLeadField m = false
        · rw [handleVC_gate_skip hm hg] at hmem
          exact absurd hmem hnot
        · have hg' : hasAnyLeadField m = true := by
            cases hb : hasAnyLeadField m
            · exact absurd hb hg
            · rfl
          by_cases hne : getCallIdVC (bodyNorm b) = ""
          · rw [handleVC_noid_seen hne] at hmem
            exact absurd hmem hnot
          · by_cases hseen : getCallIdVC (bodyNorm b) ∈ st.seen
            · rw [handleVC_dedupe_skip hm hg' rfl hne hseen] at hmem
              exact absurd hmem hnot
            · cases e with
              | none =>
                  rw [handleVC_append_ok hm hg' rfl hne hseen] at hmem ⊢
                  rcases List.mem_cons.1 hmem with h | h
                  · exact ⟨rfl, h.symm⟩
                  · exact absurd h hnot
              | some e' =>
                  rw [handleVC_append_err hm hg' rfl hne hseen] at hmem ⊢
                  rcases List.mem_cons.1 hmem with h | h
                  · exact ⟨rfl, h.symm⟩
                  · exact absurd h hnot
  · intro n₁ n₂ st b₁ b₂ e₁ m₁ m₂ c hm₁ hg₁ hm₂ hg₂ hc₂ hne hnew
    rw [handleVC_gate_skip hm₁ hg₁]
    exact handleVC_append_ok hm₂ hg₂ hc₂ hne hnew

/-- Claim C10, witness: the contentless `{"call_id":"abc"}` records nothing
and, followed by the contentful `{"call_id":"abc","caller":{"name":"A"}}`,
does not block its write; and the id recorded by the contentful request is
its own call id with the append reached. -/
theorem C10_gate_precedes_dedupe_witness :
    ((handleVC isoW ⟨[], []⟩ payloadC10a none).state = ⟨[], []⟩ ∧
     (handleVC isoW ⟨[], []⟩ payloadC10a none).resp
       = skipResp "no useful fields yet" ∧
     (handleVC isoW ⟨[], []⟩ payloadC10a none).attempted = false) ∧
    ((handleVC isoW ⟨[], []⟩ payloadC3 none).attempted = true ∧
     getCallIdVC (bodyNorm payloadC3) = "abc") ∧
    handleVC isoW (handleVC isoW ⟨[], []⟩ payloadC10a none).state
        payloadC3 none =
      ⟨⟨["abc"], [] ++ [rowVC isoW (brokerageVC (bodyNorm payloadC3))
          ⟨"A", "", "", "", "", "", "", "", ""⟩ "abc"]⟩,
       wroteResp, true⟩ :=
  ⟨C10_gate_precedes_dedupe.1 isoW ⟨[], []⟩ payloadC10a none emptyLead
     rfl rfl,
   C10_gate_precedes_dedupe.2.1 isoW ⟨[], []⟩ payloadC3 none "abc"
     (by decide) (by decide),
   C10_gate_precedes_dedupe.2.2 isoW isoW ⟨[], []⟩ payloadC10a payloadC3
     none emptyLead ⟨"A", "", "", "", "", "", "", "", ""⟩ "abc"
     rfl rfl rfl rfl rfl (by decide) (by decide)⟩
